import Mathlib

/-!
Verification development for the `no-js-speedtest` measurement session engine
(`src/session.rs`, `src/utils.rs`, `src/routes.rs`, `src/download.rs`).

The Rust code works on `f64`. Machine floats are embedded as exact rationals
extended with the three non-finite IEEE-754 values (`+inf`, `-inf`, `NaN`):
the properties under study concern control flow, guards, and the propagation
of non-finite values (division by zero, negative samples), never rounding,
so rational arithmetic with explicit non-finite propagation is a faithful
model of each operation used by the code.  Positive and negative zero are
conflated; no code path under study divides by a negative zero.
-/

namespace NoJsSpeedtest

/-- Model of an `f64` value: an exact rational, or one of the non-finite
IEEE-754 values. -/
inductive F where
  | fin (q : ℚ)
  | posInf
  | negInf
  | nan
deriving DecidableEq, Repr

/-- IEEE-754 addition on the float model (`NaN` propagates,
`+inf + -inf = NaN`). -/
def F.add : F → F → F
  | .nan, _ => .nan
  | _, .nan => .nan
  | .fin a, .fin b => .fin (a + b)
  | .fin _, .posInf => .posInf
  | .fin _, .negInf => .negInf
  | .posInf, .fin _ => .posInf
  | .negInf, .fin _ => .negInf
  | .posInf, .posInf => .posInf
  | .negInf, .negInf => .negInf
  | .posInf, .negInf => .nan
  | .negInf, .posInf => .nan

/-- IEEE-754 subtraction on the float model. -/
def F.sub : F → F → F
  | .nan, _ => .nan
  | _, .nan => .nan
  | .fin a, .fin b => .fin (a - b)
  | .fin _, .posInf => .negInf
  | .fin _, .negInf => .posInf
  | .posInf, .fin _ => .posInf
  | .negInf, .fin _ => .negInf
  | .posInf, .posInf => .nan
  | .posInf, .negInf => .posInf
  | .negInf, .posInf => .negInf
  | .negInf, .negInf => .nan

/-- IEEE-754 multiplication on the float model (`0 * inf = NaN`). -/
def F.mul : F → F → F
  | .nan, _ => .nan
  | _, .nan => .nan
  | .fin a, .fin b => .fin (a * b)
  | .fin a, .posInf => if 0 < a then .posInf else if a < 0 then .negInf else .nan
  | .fin a, .negInf => if 0 < a then .negInf else if a < 0 then .posInf else .nan
  | .posInf, .fin b => if 0 < b then .posInf else if b < 0 then .negInf else .nan
  | .negInf, .fin b => if 0 < b then .negInf else if b < 0 then .posInf else .nan
  | .posInf, .posInf => .posInf
  | .posInf, .negInf => .negInf
  | .negInf, .posInf => .negInf
  | .negInf, .negInf => .posInf

/-- IEEE-754 division on the float model: a nonzero finite value divided by
zero is a signed infinity, `0 / 0` is `NaN`, `inf / inf` is `NaN`. -/
def F.div : F → F → F
  | .nan, _ => .nan
  | _, .nan => .nan
  | .fin a, .fin b =>
    if b = 0 then (if a = 0 then .nan else if 0 < a then .posInf else .negInf)
    else .fin (a / b)
  | .fin _, .posInf => .fin 0
  | .fin _, .negInf => .fin 0
  | .posInf, .fin b => if 0 ≤ b then .posInf else .negInf
  | .negInf, .fin b => if 0 ≤ b then .negInf else .posInf
  | .posInf, .posInf => .nan
  | .posInf, .negInf => .nan
  | .negInf, .posInf => .nan
  | .negInf, .negInf => .nan

/-- IEEE-754 `<=` on the float model: any comparison with `NaN` is false. -/
def F.le : F → F → Bool
  | .nan, _ => false
  | _, .nan => false
  | .negInf, _ => true
  | _, .negInf => false
  | _, .posInf => true
  | .posInf, _ => false
  | .fin a, .fin b => decide (a ≤ b)

/-- Rust `Instant::elapsed` / `duration_since` at absolute time `now` for an
instant taken at absolute time `t`: the duration saturates to zero when the
instant is in the future. -/
def instant_elapsed (t now : ℚ) : ℚ := max (now - t) 0

/-- `utils.rs`: `calculate_bps(duration, size) = (size as f64 / duration.as_secs_f64()) * 8.0`.
No guard against a zero duration: the `f64` division produces `+inf`
(or `NaN` when `size == 0`). -/
def calculate_bps (duration : ℚ) (size : ℕ) : F :=
  F.mul (F.div (.fin (size : ℚ)) (.fin duration)) (.fin 8)

/-- `utils.rs`: `calculate_bandwidth_weight(duration, size) = ((size / 1_000_000) as f64) * duration.as_secs_f64()`.
The byte count is integer-divided by 1,000,000, so any chunk under 1 MB has
weight zero. -/
def calculate_bandwidth_weight (duration : ℚ) (size : ℕ) : F :=
  F.mul (.fin ((size / 1000000 : ℕ) : ℚ)) (.fin duration)

/-- `utils.rs`: the 9-element magnitude suffix table `SPEED_SUFFIX`. -/
def SPEED_SUFFIX : List String :=
  [" bps", " Kbps", " Mbps", " Gbps", " Tbps", " Pbps", " Ebps", " Zbps", " Ybps"]

/-- The scaling loop of `bps_to_string`:
`while speed >= 1_000.0 { order_of_magnitude += 1; speed /= 1_000.0 }`.
Returns the final scaled value and the final `order_of_magnitude`. -/
def magnitudeLoop (speed : ℚ) : ℚ × ℕ :=
  if h : 1000 ≤ speed then
    ((magnitudeLoop (speed / 1000)).1, (magnitudeLoop (speed / 1000)).2 + 1)
  else (speed, 0)
termination_by (⌊speed⌋).toNat
decreasing_by
  all_goals
  · have h1 : (1000 : ℤ) ≤ ⌊speed⌋ := by
      rw [Int.le_floor]
      exact_mod_cast h
    have hs : speed / 1000 ≤ speed - 999 := by linarith
    have h2 : ⌊speed / 1000⌋ ≤ ⌊speed⌋ - 999 := by
      have hmono : ⌊speed / 1000⌋ ≤ ⌊speed - (999 : ℤ)⌋ := by
        apply Int.floor_le_floor
        push_cast
        exact hs
      rwa [Int.floor_sub_int] at hmono
    omega

/-- Rust `as u64` conversion of a finite `f64`: truncation toward zero,
saturating at the bounds (negative values map to 0).  Used by the `_` arms
of the formatting functions; all uses in the claims stay far below `u64::MAX`,
so the upper saturation point is omitted. -/
def f64_as_u64 (q : ℚ) : ℕ := (⌊q⌋).toNat

/-- Rust round-half-to-even of a rational to an integer, as performed by
`{:.N}` formatting on an exactly-representable value. -/
def roundHalfEven (q : ℚ) : ℤ :=
  if q - ⌊q⌋ < 1/2 then ⌊q⌋
  else if (1 : ℚ)/2 < q - ⌊q⌋ then ⌊q⌋ + 1
  else if ⌊q⌋ % 2 = 0 then ⌊q⌋ else ⌊q⌋ + 1

/-- Left-pad a digit string with zeros to the given width. -/
def zeroPad (len : ℕ) (s : String) : String :=
  String.mk (List.replicate (len - s.length) '0') ++ s

/-- Rust `format!("{:.N}", q)` for a nonnegative finite value: round the
scaled value half-to-even, then print integer and fraction digits. -/
def fmtFixed (q : ℚ) (decimals : ℕ) : String :=
  toString ((roundHalfEven (q * 10 ^ decimals)).toNat / 10 ^ decimals) ++ "." ++
    zeroPad decimals (toString ((roundHalfEven (q * 10 ^ decimals)).toNat % 10 ^ decimals))

/-- `utils.rs`: `bps_to_string`.  The scaling loop runs first; the magnitude
index then selects from the 9-element `SPEED_SUFFIX` table — `none` models the
Rust panic when `order_of_magnitude` is out of range.  The match arms mirror
the Rust range patterns `0.0..10.0` (two decimals), `10.0..100.0` (one
decimal) and `_` (`speed as u64`, an integer). -/
def bps_to_string (speed : ℚ) : Option String :=
  (SPEED_SUFFIX.get? (magnitudeLoop speed).2).map (fun suffix =>
    if 0 ≤ (magnitudeLoop speed).1 ∧ (magnitudeLoop speed).1 < 10 then
      fmtFixed (magnitudeLoop speed).1 2 ++ suffix
    else if 10 ≤ (magnitudeLoop speed).1 ∧ (magnitudeLoop speed).1 < 100 then
      fmtFixed (magnitudeLoop speed).1 1 ++ suffix
    else toString (f64_as_u64 (magnitudeLoop speed).1) ++ suffix)

/-- The `debug_assert!(speed >= 0.0)` at the top of `bps_to_string`, on the
float model (false for `NaN` and for negative values). -/
def bps_to_string_assert (speed : F) : Bool := F.le (.fin 0) speed

/-- `utils.rs`: `seconds_to_string` — format a latency in seconds as
milliseconds with the same precision rule as `bps_to_string`. -/
def seconds_to_string (latency : ℚ) : String :=
  if 0 ≤ latency * 1000 ∧ latency * 1000 < 10 then fmtFixed (latency * 1000) 2 ++ "ms"
  else if 10 ≤ latency * 1000 ∧ latency * 1000 < 100 then fmtFixed (latency * 1000) 1 ++ "ms"
  else toString (f64_as_u64 (latency * 1000)) ++ "ms"

/-- The `debug_assert!(latency >= 0.0)` at the top of `seconds_to_string`,
on the float model (false for `NaN` and for negative values). -/
def seconds_to_string_assert (latency : F) : Bool := F.le (.fin 0) latency

/-- `session.rs`: `SessionState`.  `Start` and `End` carry no data; the
accumulators live only in `Downloading`.  The `start` field is the `Instant`
recorded on entering `Downloading`, modelled as an absolute time in seconds. -/
inductive SessionState where
  | Start
  | Downloading (start : ℚ) (counter : ℕ)
      (bandwidth_average bandwidth_total_weights latency_average latency_total_weights : F)
  | End
deriving DecidableEq, Repr

/-- Rank of a state along `Start → Downloading → End`. -/
def SessionState.rank : SessionState → ℕ
  | .Start => 0
  | .Downloading _ _ _ _ _ _ => 1
  | .End => 2

/-- `session.rs`: `AppState::start_download` restricted to the session entry
for the given id.  Only a session in `Start` transitions; it enters
`Downloading` with `start = now`, counter 0, and both accumulator pairs
`(0, 0)`.  The source also returns a clone of the push-channel sender; the
channel is not modelled, so the returned payload is the recorded start
instant (`None` when nothing happened). -/
def start_download (now : ℚ) : SessionState → SessionState × Option ℚ
  | .Start => (.Downloading now 0 (.fin 0) (.fin 0) (.fin 0) (.fin 0), some now)
  | s => (s, none)

/-- `session.rs`: `AppState::measure_download_latency` restricted to the
session entry.  Only acts in `Downloading` and only when the supplied
sequence number `counter` is `>=` the stored one; then
`latency = (start.elapsed().as_secs_f64() - timestamp) / 2.0` is folded into
the latency accumulator with weight 1 and the stored counter is updated. -/
def measure_download_latency (now timestamp : ℚ) (counter : ℕ) :
    SessionState → SessionState
  | .Downloading start c ba bw la lw =>
    if c ≤ counter then
      .Downloading start counter ba bw
        (F.div (F.add (F.mul la lw)
          (F.div (F.sub (.fin (instant_elapsed start now)) (.fin timestamp)) (.fin 2)))
          (F.add lw (.fin 1)))
        (F.add lw (.fin 1))
    else .Downloading start c ba bw la lw
  | s => s

/-- `session.rs`: `AppState::measure_download_bandwidth` restricted to the
session entry.  Acts in `Downloading` with no sequence-number check:
`speed = calculate_bps(instant.elapsed(), size)`,
`weight = calculate_bandwidth_weight(start.elapsed(), size)`, and the sample
is folded into the bandwidth accumulator with no zero-weight guard.  The
source returns `(sender, bps_to_string(avg), seconds_to_string(lat), start)`;
the channel and the string rendering are factored out, so the returned
payload is the pair of values handed to the formatters together with the
start instant. -/
def measure_download_bandwidth (now instant : ℚ) (size : ℕ) :
    SessionState → SessionState × Option (F × F × ℚ)
  | .Downloading start c ba bw la lw =>
    (.Downloading start c
      (F.div
        (F.add (F.mul ba bw)
          (F.mul (calculate_bps (instant_elapsed instant now) size)
            (calculate_bandwidth_weight (instant_elapsed start now) size)))
        (F.add bw (calculate_bandwidth_weight (instant_elapsed start now) size)))
      (F.add bw (calculate_bandwidth_weight (instant_elapsed start now) size))
      la lw,
      some
        (F.div
          (F.add (F.mul ba bw)
            (F.mul (calculate_bps (instant_elapsed instant now) size)
              (calculate_bandwidth_weight (instant_elapsed start now) size)))
          (F.add bw (calculate_bandwidth_weight (instant_elapsed start now) size)),
         la, start))
  | s => (s, none)

/-- `session.rs`: `AppState::stop_download` restricted to the session entry.
Only a `Downloading` session transitions to `End`; the accumulator averages
are read out (the source formats them with `bps_to_string` /
`seconds_to_string`) and the `End` state retains no fields.  In any other
state nothing happens and `None` is returned. -/
def stop_download : SessionState → SessionState × Option (F × F)
  | .Downloading _ _ ba _ la _ => (.End, some (ba, la))
  | s => (s, none)

/-- `session.rs`: `AppState::finish` restricted to the session entry.  The
state is never modified; the end-of-stream sentinel is sent on the push
channel only when the session is in `End` (the returned flag). -/
def finish : SessionState → SessionState × Bool
  | .End => (.End, true)
  | s => (s, false)

/-- `routes.rs`: the `start` handler.  `state.start_download(id)` is called;
exactly when it returns `Some`, one initial fragment is pushed and one Test
Timer task (`tokio::spawn` + `sleep` + `stop_download` + `finish`) is
spawned.  The second component counts the timers scheduled by this call. -/
def startRoute (now : ℚ) (s : SessionState) : SessionState × ℕ :=
  match start_download now s with
  | (s', some _) => (s', 1)
  | (s', none) => (s', 0)

/-- One operation of the per-session state machine, as invocable by the HTTP
handlers (`routes.rs`, `download.rs`) after the session entry is created. -/
inductive Op where
  | startDownload (now : ℚ)
  | measureLatency (now timestamp : ℚ) (counter : ℕ)
  | measureBandwidth (now instant : ℚ) (size : ℕ)
  | stopDownload
  | finishOp

/-- Effect of one operation on the session state (returned payloads
projected away). -/
def Op.apply : Op → SessionState → SessionState
  | .startDownload now, s => (start_download now s).1
  | .measureLatency now ts c, s => measure_download_latency now ts c s
  | .measureBandwidth now i sz, s => (measure_download_bandwidth now i sz s).1
  | .stopDownload, s => (stop_download s).1
  | .finishOp, s => (finish s).1

/-- Effect of a sequence of operations on the session state. -/
def applyTrace (ops : List Op) (s : SessionState) : SessionState :=
  ops.foldl (fun t op => op.apply t) s

/-- `download.rs` / `main.rs`: the payload-pool slice taken by
`DownloadBody::poll_frame` on its first poll is
`RANDOM_BITMAP.get().unwrap().slice(0..size)`.  `Bytes::slice` requires
`begin <= end && end <= len` and panics otherwise; `none` models that
panic. -/
def bytesSlice (pool : List UInt8) (b e : ℕ) : Option (List UInt8) :=
  if b ≤ e ∧ e ≤ pool.length then some ((pool.drop b).take (e - b)) else none

/-- First poll of `DownloadBody`: emit the first `size` bytes of the pool. -/
def downloadBodyFirstFrame (pool : List UInt8) (size : ℕ) : Option (List UInt8) :=
  bytesSlice pool 0 size

/-- `routes.rs`: the `download` handler forwards the client-supplied `size`
query field into `DownloadBody` with no validation. -/
def downloadRouteSize (size : ℕ) : ℕ := size

/-! Helper lemmas about the scaling loop of `bps_to_string`. -/

lemma magnitudeLoop_base {speed : ℚ} (h : ¬ 1000 ≤ speed) :
    magnitudeLoop speed = (speed, 0) := by
  rw [magnitudeLoop]
  simp [h]

lemma magnitudeLoop_step {speed : ℚ} (h : 1000 ≤ speed) :
    magnitudeLoop speed =
      ((magnitudeLoop (speed / 1000)).1, (magnitudeLoop (speed / 1000)).2 + 1) := by
  rw [magnitudeLoop]
  simp [h]

/-- If `speed < 1000 ^ (k + 1)` the loop runs at most `k` times. -/
lemma magnitudeLoop_count_le :
    ∀ (k : ℕ) (speed : ℚ), speed < 1000 ^ (k + 1) → (magnitudeLoop speed).2 ≤ k := by
  intro k
  induction k with
  | zero =>
    intro speed h
    rw [magnitudeLoop_base (by rw [pow_one] at h; linarith)]
  | succ k ih =>
    intro speed h
    by_cases hc : 1000 ≤ speed
    · rw [magnitudeLoop_step hc]
      have hdiv : speed / 1000 < 1000 ^ (k + 1) := by
        rw [div_lt_iff₀ (by norm_num : (0 : ℚ) < 1000)]
        calc speed < 1000 ^ (k + 2) := h
        _ = 1000 ^ (k + 1) * 1000 := by ring
      simpa using Nat.succ_le_succ (ih (speed / 1000) hdiv)
    · rw [magnitudeLoop_base hc]
      exact Nat.zero_le _

/-- If `1000 ^ k ≤ speed` the loop runs at least `k` times. -/
lemma magnitudeLoop_count_ge :
    ∀ (k : ℕ) (speed : ℚ), 1000 ^ k ≤ speed → k ≤ (magnitudeLoop speed).2 := by
  intro k
  induction k with
  | zero => intro speed _; exact Nat.zero_le _
  | succ k ih =>
    intro speed h
    have h1000 : (1000 : ℚ) ≤ speed := by
      calc (1000 : ℚ) = 1000 ^ 1 := (pow_one _).symm
      _ ≤ 1000 ^ (k + 1) := by
        apply pow_le_pow_right₀ (by norm_num)
        omega
      _ ≤ speed := h
    rw [magnitudeLoop_step h1000]
    have hdiv : (1000 : ℚ) ^ k ≤ speed / 1000 := by
      rw [le_div_iff₀ (by norm_num : (0 : ℚ) < 1000)]
      calc (1000 : ℚ) ^ k * 1000 = 1000 ^ (k + 1) := by ring
      _ ≤ speed := h
    simpa using Nat.succ_le_succ (ih (speed / 1000) hdiv)

/-- Every session-machine operation is monotone for the state rank. -/
lemma rank_le_apply (op : Op) (s : SessionState) : s.rank ≤ (op.apply s).rank := by
  cases op <;> cases s <;>
    simp only [Op.apply, start_download, measure_download_latency,
      measure_download_bandwidth, stop_download, finish] <;>
    (try split) <;> simp [SessionState.rank]

/-- Rank monotonicity extends to operation sequences. -/
lemma applyTrace_rank (ops : List Op) (s : SessionState) :
    s.rank ≤ (applyTrace ops s).rank := by
  induction ops generalizing s with
  | nil => exact Nat.le_refl _
  | cons op rest ih =>
    calc s.rank ≤ (op.apply s).rank := rank_le_apply op s
    _ ≤ (applyTrace rest (op.apply s)).rank := ih (op.apply s)

/-! The claims. -/

/-- C1 (counterexample): the stale-sequence guard does not cover the
bandwidth accumulator.  In a `Downloading` session whose highest recorded
sequence number is 5, the latency report of a request carrying sequence
number 3 is discarded, yet the bandwidth sample of that same stale request
is folded in: `measure_download_bandwidth` consults no sequence number, so
the bandwidth pair changes from `(0, 0)` to `(16000000, 4)`. -/
theorem c1_counterexample :
    measure_download_latency 2 1 3
        (.Downloading 0 5 (.fin 0) (.fin 0) (.fin 0) (.fin 0)) =
      .Downloading 0 5 (.fin 0) (.fin 0) (.fin 0) (.fin 0) ∧
    (measure_download_bandwidth 2 1 2000000
        (.Downloading 0 5 (.fin 0) (.fin 0) (.fin 0) (.fin 0))).1 =
      .Downloading 0 5 (.fin 16000000) (.fin 4) (.fin 0) (.fin 0) ∧
    ((F.fin 16000000, F.fin 4) ≠ (F.fin 0, F.fin 0)) := by
  refine ⟨rfl, ?_, by decide⟩
  norm_num [measure_download_bandwidth, calculate_bps, calculate_bandwidth_weight,
    instant_elapsed, F.add, F.mul, F.div]

/-- C1 (amended): only `measure_download_latency` (`report_round_trip`)
enforces the sequence guard.  A latency report whose sequence number is
strictly below the session's highest recorded one leaves the whole session
state — both accumulator pairs and the stored counter — unchanged;
`measure_download_bandwidth` takes no sequence number and accepts every
sample while the session is `Downloading`. -/
theorem c1_stale_latency_noop (start : ℚ) (c : ℕ) (ba bw la lw : F)
    (now ts : ℚ) (c' : ℕ) (h : c' < c) :
    measure_download_latency now ts c' (.Downloading start c ba bw la lw) =
      .Downloading start c ba bw la lw := by
  simp only [measure_download_latency]
  rw [if_neg (by omega)]

/-- C1 witness: the amended theorem at sequence number 3 against a session
whose highest recorded sequence number is 5. -/
theorem c1_stale_latency_noop_witness :
    measure_download_latency 1 0 3
        (.Downloading 0 5 (.fin 0) (.fin 0) (.fin 0) (.fin 0)) =
      .Downloading 0 5 (.fin 0) (.fin 0) (.fin 0) (.fin 0) :=
  c1_stale_latency_noop 0 5 (.fin 0) (.fin 0) (.fin 0) (.fin 0) 1 0 3 (by decide)

/-- C2 (code bug): the inlined running-average update of
`measure_download_bandwidth` has no zero-weight guard.  On the very first
accepted chunk of a fresh `Downloading` session (totals `(0, 0)`) with
`byte_count = 500000 < 1000000`, `calculate_bandwidth_weight` is `0`, so the
update computes `(0*0 + speed*0) / (0 + 0) = 0/0 = NaN` and the bandwidth
average becomes `NaN` instead of staying unchanged — and the `NaN` average
immediately fails `bps_to_string`'s own `debug_assert!(speed >= 0.0)`. -/
theorem c2_zero_weight_division_by_zero :
    (measure_download_bandwidth 1 0 500000
        (.Downloading 0 0 (.fin 0) (.fin 0) (.fin 0) (.fin 0))).1 =
      .Downloading 0 0 .nan (.fin 0) (.fin 0) (.fin 0) ∧
    calculate_bandwidth_weight (instant_elapsed 0 1) 500000 = .fin 0 ∧
    bps_to_string_assert .nan = false := by
  refine ⟨?_, ?_, rfl⟩ <;>
    norm_num [measure_download_bandwidth, calculate_bps, calculate_bandwidth_weight,
      instant_elapsed, F.add, F.mul, F.div]

/-- C3 (counterexample): at a rate of exactly `10^27` bits per second the
scaling loop runs 9 times, so the final magnitude index is 9 — out of range
of the 9-element `SPEED_SUFFIX` table — and `bps_to_string` panics
(modelled as `none`). -/
theorem c3_counterexample :
    (magnitudeLoop ((10 : ℚ) ^ 27)).2 = 9 ∧ bps_to_string ((10 : ℚ) ^ 27) = none := by
  have h9 : 9 ≤ (magnitudeLoop ((10 : ℚ) ^ 27)).2 :=
    magnitudeLoop_count_ge 9 _ (by norm_num)
  have hle : (magnitudeLoop ((10 : ℚ) ^ 27)).2 ≤ 9 :=
    magnitudeLoop_count_le 9 _ (by norm_num)
  have heq : (magnitudeLoop ((10 : ℚ) ^ 27)).2 = 9 := le_antisymm hle h9
  refine ⟨heq, ?_⟩
  have hnone : SPEED_SUFFIX.get? (magnitudeLoop ((10 : ℚ) ^ 27)).2 = none := by
    rw [heq]
    decide
  simp only [bps_to_string, hnone, Option.map_none']

/-- C3 (amended): for every nonnegative rate strictly below `10^27` bits per
second, the scaling loop of `bps_to_string` terminates with a magnitude
index of at most 8, so the suffix lookup stays in range of the 9-element
table and a string is returned. -/
theorem c3_loop_index_le (speed : ℚ) (h0 : 0 ≤ speed) (h : speed < 10 ^ 27) :
    (magnitudeLoop speed).2 ≤ 8 ∧ ∃ s, bps_to_string speed = some s := by
  have hle : (magnitudeLoop speed).2 ≤ 8 := by
    apply magnitudeLoop_count_le 8 speed
    calc speed < 10 ^ 27 := h
    _ = 1000 ^ (8 + 1) := by norm_num
  refine ⟨hle, ?_⟩
  have hget : ∃ suffix, SPEED_SUFFIX.get? (magnitudeLoop speed).2 = some suffix := by
    cases hg : SPEED_SUFFIX.get? (magnitudeLoop speed).2 with
    | some s => exact ⟨s, rfl⟩
    | none =>
      exfalso
      have hlen := List.get?_eq_none.mp hg
      simp only [SPEED_SUFFIX, List.length] at hlen
      omega
  obtain ⟨suffix, hs⟩ := hget
  have hne : bps_to_string speed ≠ none := by
    simp only [bps_to_string, hs, Option.map_some']
    simp
  exact Option.ne_none_iff_exists'.mp hne

/-- C3 witness: the amended theorem at a rate of 999 bps. -/
theorem c3_loop_index_le_witness :
    (magnitudeLoop (999 : ℚ)).2 ≤ 8 ∧ ∃ s, bps_to_string (999 : ℚ) = some s :=
  c3_loop_index_le 999 (by norm_num) (by norm_num)

/-- C4 (counterexample): a zero elapsed duration is not surfaced as an error
condition: `calculate_bps(0, 1000)` silently evaluates the `f64` division by
zero to `+inf` and returns it to the caller like any other sample. -/
theorem c4_counterexample : calculate_bps 0 1000 = F.posInf := by
  norm_num [calculate_bps, F.mul, F.div]

/-- C4 (amended): for a nonzero elapsed duration `calculate_bps` computes
exactly `byte_count / elapsed_seconds * 8`; a zero elapsed duration is not
guarded — the division yields `+inf` for a positive byte count (an ordinary
float value that propagates), so avoiding zero-duration samples is the
caller's responsibility. -/
theorem c4_calculate_bps_spec (d : ℚ) (size : ℕ) (hd : 0 < d) :
    calculate_bps d size = .fin ((size : ℚ) / d * 8) ∧
    (0 < size → calculate_bps 0 size = .posInf) := by
  constructor
  · simp [calculate_bps, F.div, F.mul, hd.ne']
  · intro hsz
    have h1 : ¬ ((size : ℚ) = 0) := by
      exact_mod_cast Nat.pos_iff_ne_zero.mp hsz
    have h2 : (0 : ℚ) < (size : ℚ) := by exact_mod_cast hsz
    simp [calculate_bps, F.div, F.mul, h1, h2]

/-- C4 witness: the amended theorem at a duration of 2 seconds and 1000
bytes, and at the zero duration with 1000 bytes. -/
theorem c4_calculate_bps_spec_witness :
    calculate_bps 2 1000 = .fin ((1000 : ℚ) / 2 * 8) ∧ calculate_bps 0 1000 = .posInf :=
  ⟨(c4_calculate_bps_spec 2 1000 (by norm_num)).1,
   (c4_calculate_bps_spec 2 1000 (by norm_num)).2 (by norm_num)⟩

/-- C5: the session state machine is monotone: over every sequence of
operations (as created in `Start` by `insert`), the state rank along
`Start → Downloading → End` never decreases; and the mutating operations
(`measure_download_latency`, `measure_download_bandwidth`, `stop_download`,
`finish`) applied in `Start` or `End` leave the state exactly unchanged —
a no-op, never an error. -/
theorem c5_state_machine (ops : List Op) (s : SessionState)
    (now ts instant : ℚ) (c sz : ℕ) :
    s.rank ≤ (applyTrace ops s).rank ∧
    (s = .Start ∨ s = .End →
      measure_download_latency now ts c s = s ∧
      (measure_download_bandwidth now instant sz s).1 = s ∧
      (stop_download s).1 = s ∧
      (finish s).1 = s) := by
  refine ⟨applyTrace_rank ops s, ?_⟩
  rintro (rfl | rfl) <;>
    simp [measure_download_latency, measure_download_bandwidth, stop_download, finish]

/-- C5 witness: rank monotonicity of a one-operation trace from `Start`,
and the latency mutation as a no-op in `Start`. -/
theorem c5_state_machine_witness :
    SessionState.rank .Start ≤ (applyTrace [Op.stopDownload] .Start).rank ∧
    measure_download_latency 0 0 0 .Start = .Start :=
  ⟨(c5_state_machine [Op.stopDownload] .Start 0 0 0 0 0).1,
   ((c5_state_machine [Op.stopDownload] .Start 0 0 0 0 0).2 (Or.inl rfl)).1⟩

/-- C6: `start_download` transitions only from `Start`; the `start` route
schedules exactly one Test Timer on that first call.  A second call on the
now-`Downloading` session is a no-op that schedules no timer, and on any
session not in `Start` the transition returns `(unchanged, None)`. -/
theorem c6_start_once (now now' : ℚ) :
    startRoute now .Start =
      (.Downloading now 0 (.fin 0) (.fin 0) (.fin 0) (.fin 0), 1) ∧
    startRoute now' (startRoute now .Start).1 = ((startRoute now .Start).1, 0) ∧
    (∀ s : SessionState, s ≠ .Start → start_download now' s = (s, none)) := by
  refine ⟨rfl, rfl, ?_⟩
  intro s hs
  cases s with
  | Start => exact absurd rfl hs
  | Downloading start c ba bw la lw => rfl
  | End => rfl

/-- C6 witness: the theorem at concrete instants, with the not-`Start`
branch discharged at `End`. -/
theorem c6_start_once_witness :
    startRoute 1 .Start = (.Downloading 1 0 (.fin 0) (.fin 0) (.fin 0) (.fin 0), 1) ∧
    start_download 2 .End = (.End, none) :=
  ⟨(c6_start_once 1 2).1, (c6_start_once 1 2).2.2 .End (by simp)⟩

/-- C7: `stop_download` is idempotent.  The first call on a `Downloading`
session moves it to `End` and returns the accumulator averages for the
final formatted snapshot; the second call — and any call on a session
already in `End` — returns `None` and leaves the state unchanged (the `End`
state carries no fields, so the frozen snapshot cannot be altered). -/
theorem c7_stop_download_idempotent (start : ℚ) (c : ℕ) (ba bw la lw : F) :
    stop_download (.Downloading start c ba bw la lw) = (.End, some (ba, la)) ∧
    stop_download (stop_download (.Downloading start c ba bw la lw)).1 = (.End, none) ∧
    stop_download .End = (.End, none) :=
  ⟨rfl, rfl, rfl⟩

/-- C8: `bps_to_string` on the five claimed rates, under the documented
precision rule (2 decimals under 10, 1 decimal under 100, else integer):
the suffixes are bps, bps, Kbps, Kbps, Gbps. -/
theorem c8_formatting_examples :
    bps_to_string 0 = some "0.00 bps" ∧
    bps_to_string 999 = some "999 bps" ∧
    bps_to_string 1000 = some "1.00 Kbps" ∧
    bps_to_string 999999 = some "999 Kbps" ∧
    bps_to_string (10 ^ 9) = some "1.00 Gbps" := by
  have e0 : magnitudeLoop (0 : ℚ) = (0, 0) := magnitudeLoop_base (by norm_num)
  have e999 : magnitudeLoop (999 : ℚ) = (999, 0) := magnitudeLoop_base (by norm_num)
  have e1000 : magnitudeLoop (1000 : ℚ) = (1, 1) := by
    rw [magnitudeLoop_step (by norm_num)]
    have harg : (1000 : ℚ) / 1000 = 1 := by norm_num
    rw [harg, magnitudeLoop_base (by norm_num)]
  have e999999 : magnitudeLoop (999999 : ℚ) = (999999 / 1000, 1) := by
    rw [magnitudeLoop_step (by norm_num)]
    rw [magnitudeLoop_base (by norm_num)]
  have e1e9 : magnitudeLoop ((10 : ℚ) ^ 9) = (1, 3) := by
    rw [magnitudeLoop_step (by norm_num)]
    have h1 : (10 : ℚ) ^ 9 / 1000 = 1000000 := by norm_num
    rw [h1, magnitudeLoop_step (by norm_num)]
    have h2 : (1000000 : ℚ) / 1000 = 1000 := by norm_num
    rw [h2, magnitudeLoop_step (by norm_num)]
    have h3 : (1000 : ℚ) / 1000 = 1 := by norm_num
    rw [h3, magnitudeLoop_base (by norm_num)]
  have hr0 : roundHalfEven ((0 : ℚ) * 10 ^ 2) = 0 := by norm_num [roundHalfEven]
  have hr1 : roundHalfEven ((1 : ℚ) * 10 ^ 2) = 100 := by norm_num [roundHalfEven]
  have hu999 : f64_as_u64 (999 : ℚ) = 999 := by
    norm_num [f64_as_u64]
    decide
  have hu999999 : f64_as_u64 (999999 / 1000 : ℚ) = 999 := by
    norm_num [f64_as_u64]
    decide
  have hget0 : SPEED_SUFFIX.get? 0 = some " bps" := rfl
  have hget1 : SPEED_SUFFIX.get? 1 = some " Kbps" := rfl
  have hget3 : SPEED_SUFFIX.get? 3 = some " Gbps" := rfl
  refine ⟨?_, ?_, ?_, ?_, ?_⟩
  · have e₁ : (magnitudeLoop (0 : ℚ)).1 = 0 := by rw [e0]
    have e₂ : (magnitudeLoop (0 : ℚ)).2 = 0 := by rw [e0]
    simp only [bps_to_string, e₁, e₂, hget0, Option.map_some']
    rw [if_pos (show (0 : ℚ) ≤ 0 ∧ (0 : ℚ) < 10 by norm_num)]
    simp only [fmtFixed, hr0]
    decide
  · have e₁ : (magnitudeLoop (999 : ℚ)).1 = 999 := by rw [e999]
    have e₂ : (magnitudeLoop (999 : ℚ)).2 = 0 := by rw [e999]
    simp only [bps_to_string, e₁, e₂, hget0, Option.map_some']
    rw [if_neg (show ¬((0 : ℚ) ≤ 999 ∧ (999 : ℚ) < 10) by norm_num),
      if_neg (show ¬((10 : ℚ) ≤ 999 ∧ (999 : ℚ) < 100) by norm_num)]
    simp only [hu999]
    decide
  · have e₁ : (magnitudeLoop (1000 : ℚ)).1 = 1 := by rw [e1000]
    have e₂ : (magnitudeLoop (1000 : ℚ)).2 = 1 := by rw [e1000]
    simp only [bps_to_string, e₁, e₂, hget1, Option.map_some']
    rw [if_pos (show (0 : ℚ) ≤ 1 ∧ (1 : ℚ) < 10 by norm_num)]
    simp only [fmtFixed, hr1]
    decide
  · have e₁ : (magnitudeLoop (999999 : ℚ)).1 = 999999 / 1000 := by rw [e999999]
    have e₂ : (magnitudeLoop (999999 : ℚ)).2 = 1 := by rw [e999999]
    simp only [bps_to_string, e₁, e₂, hget1, Option.map_some']
    rw [if_neg (show ¬((0 : ℚ) ≤ 999999 / 1000 ∧ (999999 / 1000 : ℚ) < 10) by norm_num),
      if_neg (show ¬((10 : ℚ) ≤ 999999 / 1000 ∧ (999999 / 1000 : ℚ) < 100) by norm_num)]
    simp only [hu999999]
    decide
  · have e₁ : (magnitudeLoop ((10 : ℚ) ^ 9)).1 = 1 := by rw [e1e9]
    have e₂ : (magnitudeLoop ((10 : ℚ) ^ 9)).2 = 3 := by rw [e1e9]
    simp only [bps_to_string, e₁, e₂, hget3, Option.map_some']
    rw [if_pos (show (0 : ℚ) ≤ 1 ∧ (1 : ℚ) < 10 by norm_num)]
    simp only [fmtFixed, hr1]
    decide

/-- C9: for any payload pool, there is a client-supplied `size` (one past
the pool length, passed unvalidated by the `download` route) for which the
first poll of `DownloadBody` violates the `Bytes::slice` precondition
`end <= len` and panics (modelled as `none`); no check guards the slice on
the request path. -/
theorem c9_oversized_slice_panics (pool : List UInt8) :
    ∃ size : ℕ, downloadBodyFirstFrame pool (downloadRouteSize size) = none := by
  refine ⟨pool.length + 1, ?_⟩
  simp [downloadBodyFirstFrame, downloadRouteSize, bytesSlice]

/-- C10: a client-reported timestamp larger than the session's elapsed time
makes `measure_download_latency` fold a negative sample into the latency
accumulator (`(1 - 5) / 2 = -2`), so the latency average becomes negative;
the next progress snapshot (`measure_download_bandwidth`) hands exactly that
negative average to `seconds_to_string`, whose non-negativity
`debug_assert` is violated. -/
theorem c10_negative_latency :
    measure_download_latency 1 5 0
        (.Downloading 0 0 (.fin 0) (.fin 0) (.fin 0) (.fin 0)) =
      .Downloading 0 0 (.fin 0) (.fin 0) (.fin (-2)) (.fin 1) ∧
    (measure_download_bandwidth 2 1 1000000
        (.Downloading 0 0 (.fin 0) (.fin 0) (.fin (-2)) (.fin 1))).2 =
      some (.fin 8000000, .fin (-2), 0) ∧
    seconds_to_string_assert (.fin (-2)) = false := by
  refine ⟨?_, ?_, ?_⟩ <;>
    norm_num [measure_download_latency, measure_download_bandwidth, calculate_bps,
      calculate_bandwidth_weight, instant_elapsed, seconds_to_string_assert,
      F.add, F.mul, F.sub, F.div, F.le]

end NoJsSpeedtest
